import Mathlib

/-!
Verification development for the gokoala OGC API server.

The definitions below are a shallow embedding of the Go source:
* `src/ogc/features/domain/cursor.go` — the cursor codec (`encodeCursor`,
  `EncodedCursor.Decode`), including a model of Go's `encoding/base64`
  URL-safe codec and of `math/big` byte conversions.
* `src/unnamed/part_003` — the feature mapper (`mapColumnsToFeature`,
  `MapRowsToFeatures`).
* `src/unnamed/part_001` — the GeoPackage datasource (`GetFeature`,
  `GetFeatures` together with the semantics of the default paging query).
* `src/main.go` — the features handler (`parseLimit`, `CollectionContent`).
* `src/engine/engine.go` — the reverse-proxy response rewrite
  (`modifyResponse`, `removeBody`) and `RenderAndServePage`.

Bytes are modelled as `Nat` values below 256, Go strings as `List Char`,
and Go's `int64` as `Int` with explicit wrap-around where the source relies
on it.
-/

namespace GoKoala

/-! ## Base64 URL codec (model of Go `encoding/base64` `URLEncoding`) -/

/-- The URL-safe base64 alphabet used by Go's `base64.URLEncoding`. -/
def b64Alphabet : List Char :=
  ['A', 'B', 'C', 'D', 'E', 'F', 'G', 'H', 'I', 'J', 'K', 'L', 'M',
   'N', 'O', 'P', 'Q', 'R', 'S', 'T', 'U', 'V', 'W', 'X', 'Y', 'Z',
   'a', 'b', 'c', 'd', 'e', 'f', 'g', 'h', 'i', 'j', 'k', 'l', 'm',
   'n', 'o', 'p', 'q', 'r', 's', 't', 'u', 'v', 'w', 'x', 'y', 'z',
   '0', '1', '2', '3', '4', '5', '6', '7', '8', '9', '-', '_']

/-- The character encoding a 6-bit group. -/
def encodeChar (n : Nat) : Char := b64Alphabet.getD n 'A'

/-- The 6-bit group encoded by a character; `none` for characters outside
the alphabet (including the padding character). -/
def decodeChar (c : Char) : Option Nat := b64Alphabet.findIdx? (fun x => x == c)

/-- Encoding of a byte sequence, three bytes to four characters, with
trailing groups padded by `=` as Go's `EncodeToString` does. -/
def base64UrlEncode : List Nat → List Char
  | [] => []
  | [a] => [encodeChar (a / 4), encodeChar (a % 4 * 16), '=', '=']
  | [a, b] => [encodeChar (a / 4), encodeChar (a % 4 * 16 + b / 16),
               encodeChar (b % 16 * 4), '=']
  | a :: b :: c :: rest =>
      encodeChar (a / 4) :: encodeChar (a % 4 * 16 + b / 16) ::
      encodeChar (b % 16 * 4 + c / 64) :: encodeChar (c % 64) ::
      base64UrlEncode rest

/-- Decoding as Go's `DecodeString`: four characters to three bytes, the
last quantum possibly padded; `none` on malformed input. -/
def base64UrlDecode : List Char → Option (List Nat)
  | [] => some []
  | c1 :: c2 :: c3 :: c4 :: rest =>
    match decodeChar c1, decodeChar c2 with
    | some s1, some s2 =>
      if c3 = '=' then
        if c4 = '=' then
          if rest = [] then some [s1 * 4 + s2 / 16] else none
        else none
      else
        match decodeChar c3 with
        | some s3 =>
          if c4 = '=' then
            if rest = [] then some [s1 * 4 + s2 / 16, s2 % 16 * 16 + s3 / 4]
            else none
          else
            match decodeChar c4 with
            | some s4 =>
              match base64UrlDecode rest with
              | some ds =>
                  some ((s1 * 4 + s2 / 16) :: (s2 % 16 * 16 + s3 / 4) ::
                        (s3 % 4 * 64 + s4) :: ds)
              | none => none
            | none => none
        | none => none
    | _, _ => none
  | _ => none

/-! ## Big-integer byte conversions (model of `math/big`) -/

/-- Fuelled helper for `natBytes`; the fuel bounds the recursion depth so
that the definition is structural and kernel-reducible. -/
def natBytesFuel : Nat → Nat → List Nat
  | 0, _ => []
  | _ + 1, 0 => []
  | fuel + 1, n => natBytesFuel fuel (n / 256) ++ [n % 256]

/-- Minimal big-endian bytes of a natural number, as Go's
`big.Int.Bytes`: the empty list for `0`, no leading zero bytes. -/
def natBytes (n : Nat) : List Nat := natBytesFuel n n

/-- Big-endian bytes to natural number, as Go's `big.Int.SetBytes`. -/
def bytesToNat (bs : List Nat) : Nat := bs.foldl (fun acc b => acc * 256 + b) 0

/-- Go's `big.Int.Int64`: the low 64 bits interpreted as a two's-complement
signed integer. -/
def int64OfNat (n : Nat) : Int :=
  let v := n % 18446744073709551616
  if v < 9223372036854775808 then (v : Int) else (v : Int) - 18446744073709551616

/-! ## Cursor codec (src/ogc/features/domain/cursor.go) -/

/-- The cursor separator byte, `'|'` = `0x7C`. -/
def separator : Nat := 124

/-- The cursor values after decoding an `EncodedCursor`. -/
structure DecodedCursor where
  FID : Int
  FiltersChecksum : List Nat
deriving DecidableEq

/-- `bytes.Split` at the separator byte: all subslices between occurrences
of `separator`; always returns at least one part. -/
def splitOnSep : List Nat → List (List Nat)
  | [] => [[]]
  | b :: rest =>
    if b = separator then [] :: splitOnSep rest
    else
      match splitOnSep rest with
      | [] => [[b]]
      | p :: ps => (b :: p) :: ps

/-- An encoded cursor is a Go string; modelled as a list of characters. -/
abbrev EncodedCursor := List Char

/-- `encodeCursor`: URL-safe base64 of `fidBytes ++ separator ++ checksum`,
where `fidBytes` are the minimal big-endian bytes of the fid
(`big.NewInt(fid).Bytes()`, the bytes of the absolute value). -/
def encodeCursor (fid : Int) (filtersChecksum : List Nat) : EncodedCursor :=
  base64UrlEncode (natBytes fid.natAbs ++ separator :: filtersChecksum)

/-- `EncodedCursor.Decode`: decodes the cursor and verifies that the
checksum of the filter query params has not changed, following the Go
control flow branch by branch. -/
def EncodedCursor.Decode (c : EncodedCursor) (filtersChecksum : List Nat) : DecodedCursor :=
  if c = [] then ⟨0, filtersChecksum⟩
  else
    match base64UrlDecode c with
    | none => ⟨0, filtersChecksum⟩
    | some decoded =>
      if decoded.length = 0 then ⟨0, filtersChecksum⟩
      else
        let decodedParts := splitOnSep decoded
        if decoded.length < 1 then ⟨0, filtersChecksum⟩
        else
          let fid0 := int64OfNat (bytesToNat (decodedParts.headD []))
          let fid := if fid0 < 0 then 0 else fid0
          if decodedParts.length > 1 ∧ decodedParts.getD 1 [] ≠ filtersChecksum then
            ⟨0, filtersChecksum⟩
          else
            ⟨fid, filtersChecksum⟩

/-! ## Feature mapper (src/unnamed/part_003, package domain) -/

/-- A value delivered by the SQLite driver for one column. `vFloat` and
`vTime` carry their payload abstractly (bit pattern / instant); `vOther`
stands for any driver type outside the handled set. -/
inductive SQLValue where
  | vNull
  | vInt (i : Int)
  | vFloat (bits : Nat)
  | vBytes (bs : List Nat)
  | vText (s : String)
  | vBool (b : Bool)
  | vTime (t : Int)
  | vOther (tag : String)
deriving DecidableEq

/-- A feature property value after mapping. -/
inductive PropValue where
  | pStr (s : String)
  | pInt (i : Int)
  | pFloat (bits : Nat)
  | pTime (t : Int)
  | pBool (b : Bool)
deriving DecidableEq

/-- A decoded geometry; the decoder's output is opaque to the mapper, so it
is modelled as the raw bytes it was decoded from. -/
structure GpkgGeometry where
  raw : List Nat
deriving DecidableEq

/-- Go `string(bytes)`: the byte blob materialised as a string. -/
def bytesAsString (bs : List Nat) : String := String.mk (bs.map Char.ofNat)

/-- A mapped feature: id, optional geometry and the property bag (a Go map;
modelled as an association list in insertion order). -/
structure Feature where
  id : Int
  geometry : Option GpkgGeometry
  properties : List (String × PropValue)
deriving DecidableEq

/-- Outcome of Go code that can return normally, return an error, or panic
(runtime fault from a failed unchecked type assertion). -/
inductive MapOutcome (α : Type) where
  | ok (a : α)
  | err (msg : String)
  | panic
deriving DecidableEq

/-- The column names skipped by the mapper (bounding box and zoom
storage artifacts). -/
def reservedColumns : List String := ["minx", "miny", "maxx", "maxy", "min_zoom", "max_zoom"]

/-- `mapColumnsToFeature`: dispatch each column of a row by name. The row is
the paired `columns`/`values` slices. The id column is read with the
unchecked type assertion `columnValue.(int64)`, which panics on a non-nil
value of any other type; the geometry column is read with a checked
assertion and returns an error instead. -/
def mapColumnsToFeature (feature : Feature) (row : List (String × SQLValue))
    (fidColumn geomColumn : String)
    (geomMapper : List Nat → Except String GpkgGeometry) : MapOutcome Feature :=
  match row with
  | [] => .ok feature
  | (columnName, columnValue) :: rest =>
    if columnValue = .vNull then
      mapColumnsToFeature feature rest fidColumn geomColumn geomMapper
    else if columnName = fidColumn then
      match columnValue with
      | .vInt i => mapColumnsToFeature { feature with id := i } rest fidColumn geomColumn geomMapper
      | _ => .panic
    else if columnName = geomColumn then
      match columnValue with
      | .vBytes bs =>
        match geomMapper bs with
        | .error _ => .err "failed to map/decode geometry from datastore"
        | .ok g =>
          mapColumnsToFeature { feature with geometry := some g } rest fidColumn geomColumn geomMapper
      | _ => .err "failed to read geometry from column in datastore"
    else if columnName ∈ reservedColumns then
      mapColumnsToFeature feature rest fidColumn geomColumn geomMapper
    else
      match columnValue with
      | .vBytes bs =>
        mapColumnsToFeature { feature with properties := feature.properties ++ [(columnName, .pStr (bytesAsString bs))] } rest fidColumn geomColumn geomMapper
      | .vInt i =>
        mapColumnsToFeature { feature with properties := feature.properties ++ [(columnName, .pInt i)] } rest fidColumn geomColumn geomMapper
      | .vFloat x =>
        mapColumnsToFeature { feature with properties := feature.properties ++ [(columnName, .pFloat x)] } rest fidColumn geomColumn geomMapper
      | .vTime t =>
        mapColumnsToFeature { feature with properties := feature.properties ++ [(columnName, .pTime t)] } rest fidColumn geomColumn geomMapper
      | .vText s =>
        mapColumnsToFeature { feature with properties := feature.properties ++ [(columnName, .pStr s)] } rest fidColumn geomColumn geomMapper
      | .vBool b =>
        mapColumnsToFeature { feature with properties := feature.properties ++ [(columnName, .pBool b)] } rest fidColumn geomColumn geomMapper
      | _ => .err "unexpected type for sqlite column data"

/-- The fresh feature each row starts from. -/
def emptyFeature : Feature := { id := 0, geometry := none, properties := [] }

/-- `MapRowsToFeatures`: map every row of the result set; the first error or
panic aborts the mapping. -/
def MapRowsToFeatures (rows : List (List (String × SQLValue)))
    (fidColumn geomColumn : String)
    (geomMapper : List Nat → Except String GpkgGeometry) : MapOutcome (List Feature) :=
  match rows with
  | [] => .ok []
  | row :: rest =>
    match mapColumnsToFeature emptyFeature row fidColumn geomColumn geomMapper with
    | .panic => .panic
    | .err e => .err e
    | .ok f =>
      match MapRowsToFeatures rest fidColumn geomColumn geomMapper with
      | .panic => .panic
      | .err e => .err e
      | .ok fs => .ok (f :: fs)

/-! ## GeoPackage datasource: single feature (src/unnamed/part_001) -/

/-- Result set of `select * from table where fid = :fid limit 1`: the rows
whose fid column equals the requested feature id, capped at one row. -/
def singleFeatureQueryRows (tableRows : List (List (String × SQLValue)))
    (fidColumn : String) (fid : Int) : List (List (String × SQLValue)) :=
  (tableRows.filter (fun r => r.lookup fidColumn = some (.vInt fid))).take 1

/-- `GeoPackage.GetFeature`: look the collection up in the table map, run
the single-feature query, map the rows; when the mapping does not yield
exactly one feature, return `ok none` (nil feature, nil error). -/
def GetFeature (tables : List (String × List (List (String × SQLValue))))
    (collection : String) (fidColumn geomColumn : String)
    (geomMapper : List Nat → Except String GpkgGeometry)
    (featureID : Int) : MapOutcome (Option Feature) :=
  match tables.lookup collection with
  | none => .err "collection does not exist in geopackage"
  | some tableRows =>
    match MapRowsToFeatures (singleFeatureQueryRows tableRows fidColumn featureID)
        fidColumn geomColumn geomMapper with
    | .panic => .panic
    | .err e => .err e
    | .ok features => if features.length ≠ 1 then .ok none else .ok features.head?

/-! ## GeoPackage datasource: feature collections (src/unnamed/part_001)

The default (no-bbox) paging query of `makeDefaultQuery` is translated CTE
by CTE. A feature table is modelled by its list of fids in ascending order;
the synthetic window columns `prevfid`/`nextfid` are `lag(fid, limit)` and
`lead(fid, limit)` over the combined next/prev row set ordered by fid. -/

/-- CTE `next`: rows with `fid >= :fid`, ascending, `limit :limit + 1`. -/
def nextRows (table : List Int) (fid : Int) (lim : Nat) : List Int :=
  (table.filter (fun x => fid ≤ x)).take (lim + 1)

/-- CTE `prev`: rows with `fid < :fid`, descending, `limit :limit`. -/
def prevRows (table : List Int) (fid : Int) (lim : Nat) : List Int :=
  ((table.filter (fun x => x < fid)).reverse).take lim

/-- A row of the `nextprevfeat` CTE: the fid plus the window columns. -/
structure WindowRow where
  fid : Int
  prevfid : Option Int
  nextfid : Option Int
deriving DecidableEq

/-- The window step: over the rows sorted by fid, `prevfid` is the fid
`lim` rows earlier and `nextfid` the fid `lim` rows later (SQL `lag`/`lead`
with NULL beyond the ends). -/
def windowRows (sorted : List Int) (lim : Nat) : List WindowRow :=
  (List.range sorted.length).map (fun i =>
    { fid := sorted.getD i 0,
      prevfid := if lim ≤ i then sorted.get? (i - lim) else none,
      nextfid := sorted.get? (i + lim) })

/-- The full default query: window over `prev ∪ next` ordered by fid, then
`where fid >= :fid limit :limit`. -/
def defaultQueryRows (table : List Int) (fid : Int) (lim : Nat) : List WindowRow :=
  let sorted := (prevRows table fid lim).reverse ++ nextRows table fid lim
  ((windowRows sorted lim).filter (fun r => fid ≤ r.fid)).take lim

/-- Previous and next feature id to encode in a cursor. -/
structure PrevNextFID where
  prev : Int
  next : Int
deriving DecidableEq

/-- Modelled from the spec: the three-result row mapper used by
`GeoPackage.GetFeatures` (its source is not under src/, only its caller);
per the spec it returns the features plus any one row's
`(prevfid, nextfid)` pair, which is identical across the result set by
construction, and no pair when there are no rows. -/
def mapRowsToFeaturesWithPrevNext (rows : List WindowRow) :
    List Int × Option PrevNextFID :=
  match rows with
  | [] => ([], none)
  | r :: _ => (rows.map WindowRow.fid,
               some { prev := r.prevfid.getD 0, next := r.nextfid.getD 0 })

/-- `Cursors` holds the encoded next and previous cursor. -/
structure Cursors where
  prevCursor : EncodedCursor
  nextCursor : EncodedCursor
  HasPrev : Bool
  HasNext : Bool
deriving DecidableEq

/-- `NewCursors`: encode the prev/next fids against the filters checksum;
`HasPrev`/`HasNext` hold iff the corresponding fid is positive. -/
def NewCursors (fid : PrevNextFID) (filtersChecksum : List Nat) : Cursors :=
  { prevCursor := encodeCursor fid.prev filtersChecksum,
    nextCursor := encodeCursor fid.next filtersChecksum,
    HasPrev := decide (fid.prev > 0),
    HasNext := decide (fid.next > 0) }

/-- A feature collection page (features by fid, count returned). -/
structure FeatureCollection where
  features : List Int
  numberReturned : Nat
deriving DecidableEq

/-- `GeoPackage.GetFeatures` on the default query: run the paging query,
map the rows; a missing prev/next pair (no rows) yields a nil collection
and no error. -/
def GetFeatures (table : List Int) (cursor : DecodedCursor) (lim : Nat) :
    Option (FeatureCollection × Cursors) :=
  let rows := defaultQueryRows table cursor.FID lim
  match mapRowsToFeaturesWithPrevNext rows with
  | (_, none) => none
  | (feats, some pn) =>
    some ({ features := feats, numberReturned := feats.length },
          NewCursors pn cursor.FiltersChecksum)

/-- The responses `Features.CollectionContent` can produce. -/
inductive CollectionResponse where
  | badRequest
  | notFound
  | serverError
  | page (fc : FeatureCollection) (cursors : Cursors)
deriving DecidableEq

/-- `Features.CollectionContent` after parameter parsing, for a default
(no-bbox) request: an unknown collection is not-found; the cursor is decoded
against the current checksum; a nil collection from the datasource is
answered with not-found, otherwise the page is served with its cursors. -/
def CollectionContent (collection : Option (List Int)) (encodedCursor : EncodedCursor)
    (checksum : List Nat) (lim : Nat) : CollectionResponse :=
  match collection with
  | none => .notFound
  | some table =>
    match GetFeatures table (EncodedCursor.Decode encodedCursor checksum) lim with
    | none => .notFound
    | some (fc, cursors) => .page fc cursors

/-! ## Features handler: parseLimit (src/main.go) -/

/-- Decimal digits of a string; `none` when empty or containing a
non-digit. -/
def parseDigitsAux : List Char → Nat → Option Nat
  | [], acc => some acc
  | c :: rest, acc =>
    if '0' ≤ c ∧ c ≤ '9' then parseDigitsAux rest (acc * 10 + (c.toNat - '0'.toNat))
    else none

/-- Digit-block parser feeding `atoi`. -/
def parseDigits (cs : List Char) : Option Nat :=
  if cs = [] then none else parseDigitsAux cs 0

/-- Go `strconv.Atoi` on a 64-bit platform: optional sign, decimal digits,
out-of-range values clamped to the int64 bounds with an error. Returns
`(value, errored)`. -/
def atoi (s : List Char) : Int × Bool :=
  let signDigits : Bool × List Char :=
    match s with
    | '+' :: rest => (false, rest)
    | '-' :: rest => (true, rest)
    | _ => (false, s)
  match parseDigits signDigits.2 with
  | none => (0, true)
  | some n =>
    if signDigits.1 then
      if n > 9223372036854775808 then (-9223372036854775808, true) else (-(n : Int), false)
    else
      if n > 9223372036854775807 then (9223372036854775807, true) else ((n : Int), false)

/-- The two error messages `parseLimit` can produce. -/
inductive LimitErr where
  | notNumeric
  | negative
deriving DecidableEq

/-- `Features.parseLimit`: the empty parameter means absent and uses the
configured default; a present parameter is parsed with `Atoi` (failure
becomes the numeric error) and clamped at the configured maximum; a final
negative value becomes the negative error. -/
def parseLimit (limitDefault limitMax : Int) (param : List Char) : Int × Option LimitErr :=
  let st :=
    if param ≠ [] then
      let p := atoi param
      let errv := if p.2 then some LimitErr.notNumeric else none
      let lim := if p.1 > limitMax then limitMax else p.1
      (lim, errv)
    else (limitDefault, none)
  if st.1 < 0 then (st.1, some LimitErr.negative) else st

/-! ## Engine: reverse proxy response rewrite (src/engine/engine.go) -/

/-- The parts of an upstream HTTP response touched by the proxy rewrite:
status code, body bytes and the `Content-Length` / `Content-Type` header
value lists (an empty list means the header is not written). -/
structure ProxyResponse where
  statusCode : Nat
  body : List Nat
  contentLength : List String
  contentType : List String
deriving DecidableEq

/-- `removeBody`: empty body, `Content-Length` set to `0`, `Content-Type`
set to the empty value list. -/
def removeBody (proxyRes : ProxyResponse) : ProxyResponse :=
  { proxyRes with body := [], contentLength := ["0"], contentType := [] }

/-- The `modifyResponse` closure of `Engine.ReverseProxy`: under
`prefer204`, a 404 is rewritten to 204 with the body removed, and then a
non-empty content-type override replaces the `Content-Type` header. -/
def modifyResponse (prefer204 : Bool) (contentTypeOverwrite : String)
    (proxyRes : ProxyResponse) : ProxyResponse :=
  if prefer204 then
    let res1 :=
      if proxyRes.statusCode = 404 then removeBody { proxyRes with statusCode := 204 }
      else proxyRes
    if contentTypeOverwrite ≠ "" then { res1 with contentType := [contentTypeOverwrite] }
    else res1
  else proxyRes

/-! ## Engine: RenderAndServePage (src/engine/engine.go) -/

/-- The HTML format constant. -/
def FormatHTML : String := "html"

/-- A parsed template held by the store: either an `html/template` or a
`text/template` value (the dynamic type behind the interface). -/
inductive ParsedTemplate where
  | htmlTemplate (name : String)
  | textTemplate (name : String)
deriving DecidableEq

/-- One write performed on the `http.ResponseWriter`. -/
inductive HTTPWrite where
  | errorResp (status : Nat) (msg : String)
  | header (name value : String)
  | body (bs : List Nat)
deriving DecidableEq

/-- How a handler invocation ends: a normal return, or a panic (from a
failed type assertion) after the listed writes were already emitted. -/
inductive RenderOutcome where
  | done (writes : List HTTPWrite)
  | panicked (writes : List HTTPWrite)
deriving DecidableEq

/-- The collaborators `RenderAndServePage` consults, abstracted per
request: the OpenAPI request validation result, the template store lookup
for the key, the render outputs, the OpenAPI response validation, and the
media type of the key's format. -/
structure RenderEnv where
  validateRequestError : Option String
  getParsedTemplate : Except String ParsedTemplate
  renderHTMLOutput : List Nat
  renderNonHTMLOutput : List Nat
  validateResponseError : List Nat → Option String
  contentType : String

/-- `Engine.RenderAndServePage`: request validation failure answers 400 and
returns; a failed template lookup writes a 500 response but does not
return, so the subsequent type assertion on the nil template value panics;
a template of the wrong dynamic type for the key's format also panics at
the assertion; otherwise the output is rendered, response-validated and
written. -/
def RenderAndServePage (env : RenderEnv) (keyFormat : String) : RenderOutcome :=
  match env.validateRequestError with
  | some e => .done [.errorResp 400 e]
  | none =>
    match env.getParsedTemplate with
    | .error e => .panicked [.errorResp 500 e]
    | .ok parsedTemplate =>
      let output? : Option (List Nat) :=
        if keyFormat = FormatHTML then
          match parsedTemplate with
          | .htmlTemplate _ => some env.renderHTMLOutput
          | _ => none
        else
          match parsedTemplate with
          | .textTemplate _ => some env.renderNonHTMLOutput
          | _ => none
      match output? with
      | none => .panicked []
      | some output =>
        match env.validateResponseError output with
        | some e => .done [.errorResp 500 e]
        | none =>
          if env.contentType ≠ "" then
            .done [.header "Content-Type" env.contentType, .body output]
          else
            .done [.body output]

/-! ## Theorems -/

/-- Claim C8: every return path of `EncodedCursor.Decode` carries the
expected checksum passed by the caller, never the checksum bytes embedded
in the cursor, and a non-negative FID. -/
theorem decode_checksum_fid_invariant (c : EncodedCursor) (cs : List Nat) :
    (EncodedCursor.Decode c cs).FiltersChecksum = cs ∧
    0 ≤ (EncodedCursor.Decode c cs).FID := by
  unfold EncodedCursor.Decode
  split
  · exact ⟨rfl, le_refl 0⟩
  · split
    · exact ⟨rfl, le_refl 0⟩
    · split
      · exact ⟨rfl, le_refl 0⟩
      · split
        · exact ⟨rfl, le_refl 0⟩
        · dsimp only
          split
          · exact ⟨rfl, le_refl 0⟩
          · refine ⟨rfl, ?_⟩
            split <;> dsimp only <;> omega

/-- Claim C5: decoding the empty cursor yields the first page bound to the
expected checksum, and any input the base64 decoder rejects also yields the
first page; no return path reports an error. -/
theorem decode_total_default (c : EncodedCursor) (cs : List Nat)
    (h : base64UrlDecode c = none) :
    EncodedCursor.Decode [] cs = ⟨0, cs⟩ ∧ EncodedCursor.Decode c cs = ⟨0, cs⟩ := by
  refine ⟨rfl, ?_⟩
  unfold EncodedCursor.Decode
  split
  · rfl
  · rw [h]

/-- Witness for claim C5 at the concrete invalid input `"!!!!"`. -/
theorem decode_total_default_witness :
    EncodedCursor.Decode [] [2] = ⟨0, [2]⟩ ∧
    EncodedCursor.Decode ['!', '!', '!', '!'] [2] = ⟨0, [2]⟩ :=
  decode_total_default ['!', '!', '!', '!'] [2] (by decide)

/-- Claim C7: for a collection known to the datasource, when the
single-feature query returns no row, `GetFeature` returns a nil feature
together with a nil error. -/
theorem getFeature_no_row_nil_nil
    (tables : List (String × List (List (String × SQLValue))))
    (collection : String) (fidColumn geomColumn : String)
    (geomMapper : List Nat → Except String GpkgGeometry) (featureID : Int)
    (tableRows : List (List (String × SQLValue)))
    (hknown : tables.lookup collection = some tableRows)
    (hnorow : singleFeatureQueryRows tableRows fidColumn featureID = []) :
    GetFeature tables collection fidColumn geomColumn geomMapper featureID = .ok none := by
  simp only [GetFeature, hknown, hnorow]
  rfl

/-- Witness for claim C7: an empty table, so the query returns no row. -/
theorem getFeature_no_row_nil_nil_witness :
    GetFeature [("addresses", [])] "addresses" "fid" "geom"
      (fun bs => .ok ⟨bs⟩) 7 = .ok none :=
  getFeature_no_row_nil_nil [("addresses", [])] "addresses" "fid" "geom"
    (fun bs => .ok ⟨bs⟩) 7 [] (by decide) (by decide)

/-- Claim C9: a row whose fid column holds a non-nil value that is not an
int64 makes the feature mapper panic at the unchecked type assertion
instead of returning an error. -/
theorem fid_column_type_assertion_panics (fidColumn geomColumn : String)
    (geomMapper : List Nat → Except String GpkgGeometry)
    (feature : Feature) (v : SQLValue)
    (hnn : v ≠ .vNull) (hni : ∀ i, v ≠ .vInt i) :
    mapColumnsToFeature feature [(fidColumn, v)] fidColumn geomColumn geomMapper =
      .panic := by
  unfold mapColumnsToFeature
  rw [if_neg hnn, if_pos rfl]
  cases v with
  | vInt i => exact absurd rfl (hni i)
  | _ => rfl

/-- Witness for claim C9: a text-valued fid column panics the mapper. -/
theorem fid_column_type_assertion_panics_witness :
    mapColumnsToFeature emptyFeature [("fid", .vText "x")] "fid" "geom"
      (fun bs => .ok ⟨bs⟩) = .panic :=
  fid_column_type_assertion_panics "fid" "geom" (fun bs => .ok ⟨bs⟩)
    emptyFeature (.vText "x") (by simp) (by simp)

/-- Claim C10: when the parsed-template lookup fails,
`RenderAndServePage` writes a 500 response but does not return, and the
type assertion on the nil template value then panics. -/
theorem renderAndServePage_lookup_failure_panics (env : RenderEnv)
    (keyFormat : String) (e : String)
    (hreq : env.validateRequestError = none)
    (hlookup : env.getParsedTemplate = .error e) :
    RenderAndServePage env keyFormat = .panicked [.errorResp 500 e] := by
  unfold RenderAndServePage
  rw [hreq, hlookup]

/-- Witness for claim C10 at a concrete environment whose template lookup
fails. -/
theorem renderAndServePage_lookup_failure_panics_witness :
    RenderAndServePage
      { validateRequestError := none,
        getParsedTemplate := .error "template missing",
        renderHTMLOutput := [], renderNonHTMLOutput := [],
        validateResponseError := fun _ => none,
        contentType := "text/html" } "html" =
      .panicked [.errorResp 500 "template missing"] :=
  renderAndServePage_lookup_failure_panics _ "html" "template missing" rfl rfl

/-- Claim C4 counterexample: with `prefer204` and a non-empty content-type
override, a 404 upstream response is delivered with a `Content-Type`
header, so the claimed unconditional absence of `Content-Type` is false. -/
theorem proxy_prefer204_counterexample :
    (modifyResponse true "application/json"
      { statusCode := 404, body := [1, 2], contentLength := ["2"],
        contentType := ["image/png"] }).contentType ≠ [] := by
  decide

/-- Claim C4 (amended): with `prefer204`, a 404 upstream response is
rewritten to 204 with an empty body and `Content-Length` 0; its
`Content-Type` is cleared when no override is supplied, while a non-empty
override replaces the `Content-Type` value. -/
theorem proxy_prefer204_rewrite (proxyRes : ProxyResponse) (overwrite : String)
    (h404 : proxyRes.statusCode = 404) :
    (modifyResponse true overwrite proxyRes).statusCode = 204 ∧
    (modifyResponse true overwrite proxyRes).body = [] ∧
    (modifyResponse true overwrite proxyRes).contentLength = ["0"] ∧
    (overwrite = "" → (modifyResponse true overwrite proxyRes).contentType = []) ∧
    (overwrite ≠ "" → (modifyResponse true overwrite proxyRes).contentType = [overwrite]) := by
  unfold modifyResponse removeBody
  rw [if_pos h404]
  by_cases hov : overwrite = "" <;> simp [hov]

/-- Witness for claim C4 at a concrete 404 upstream response. -/
theorem proxy_prefer204_rewrite_witness :
    (modifyResponse true ""
      { statusCode := 404, body := [1, 2], contentLength := ["2"],
        contentType := ["image/png"] }).statusCode = 204 ∧
    (modifyResponse true ""
      { statusCode := 404, body := [1, 2], contentLength := ["2"],
        contentType := ["image/png"] }).contentType = [] := by
  have h := proxy_prefer204_rewrite
    { statusCode := 404, body := [1, 2], contentLength := ["2"],
      contentType := ["image/png"] } "" rfl
  exact ⟨h.1, h.2.2.2.1 rfl⟩

/-- Claim C6: with a non-negative configured default and maximum,
`parseLimit` returns the default without error when the parameter is
absent, reports an error for a non-numeric value and for any negative
value, and silently clamps a numeric value above the maximum to the
maximum without error. -/
theorem parseLimit_spec (limitDefault limitMax v : Int) (param : List Char)
    (hd : 0 ≤ limitDefault) (hm : 0 ≤ limitMax) :
    parseLimit limitDefault limitMax [] = (limitDefault, none) ∧
    (param ≠ [] → (atoi param).2 = true → (parseLimit limitDefault limitMax param).2 ≠ none) ∧
    (atoi param = (v, false) → v < 0 →
      (parseLimit limitDefault limitMax param).2 = some LimitErr.negative) ∧
    (atoi param = (v, false) → limitMax < v →
      parseLimit limitDefault limitMax param = (limitMax, none)) := by
  have hne : (atoi param).2 = false → param ≠ [] := by
    intro hf hnil
    subst hnil
    simp [atoi, parseDigits] at hf
  refine ⟨?_, ?_, ?_, ?_⟩
  · unfold parseLimit
    rw [if_neg (fun h : ([] : List Char) ≠ [] => h rfl)]
    dsimp only
    rw [if_neg (by omega : ¬limitDefault < 0)]
  · intro hp herr
    unfold parseLimit
    rw [if_pos hp]
    dsimp only
    rw [herr]
    split <;> split <;> simp
  · intro hv hneg
    have hp := hne (by rw [hv])
    unfold parseLimit
    rw [if_pos hp]
    dsimp only
    rw [hv]
    dsimp only
    rw [if_neg (by omega : ¬v > limitMax)]
    simp only [Bool.false_eq_true, if_false]
    rw [if_pos hneg]
  · intro hv hgt
    have hp := hne (by rw [hv])
    unfold parseLimit
    rw [if_pos hp]
    dsimp only
    rw [hv]
    dsimp only
    rw [if_pos (hgt : v > limitMax)]
    simp only [Bool.false_eq_true, if_false]
    rw [if_neg (by omega : ¬limitMax < 0)]

/-- Witness for claim C6 at default 10, maximum 100 and the over-maximum
numeric parameter `"200"`. -/
theorem parseLimit_spec_witness :
    parseLimit 10 100 [] = (10, none) ∧
    parseLimit 10 100 ['2', '0', '0'] = (100, none) := by
  have h := parseLimit_spec 10 100 200 ['2', '0', '0'] (by decide) (by decide)
  exact ⟨h.1, h.2.2.2 (by decide) (by decide)⟩

/-- Claim C3 counterexample: on the three-feature collection `[1,2,3]`
starting at the first page, a request with limit 0 is answered not-found,
not with an empty page carrying a next cursor. -/
theorem limit_zero_counterexample :
    CollectionContent (some [1, 2, 3]) [] [] 0 = .notFound ∧
    ¬∃ cursors, CollectionContent (some [1, 2, 3]) [] [] 0 =
        .page { features := [], numberReturned := 0 } cursors ∧ cursors.HasNext = true := by
  refine ⟨by decide, ?_⟩
  rintro ⟨cursors, hpage, -⟩
  rw [show CollectionContent (some [1, 2, 3]) [] [] 0 = .notFound from by decide] at hpage
  exact absurd hpage (by simp)

/-- Claim C3 (amended): a feature-collection request with limit 0 is
answered not-found for every collection and cursor: the final window query
returns no rows, so the datasource returns a nil collection and the
handler replies not-found. -/
theorem limit_zero_not_found (table : List Int) (encodedCursor : EncodedCursor)
    (checksum : List Nat) :
    CollectionContent (some table) encodedCursor checksum 0 = .notFound := by
  unfold CollectionContent GetFeatures
  simp [defaultQueryRows, mapRowsToFeaturesWithPrevNext]

/-- Decoding inverts encoding on every 6-bit group. -/
theorem decodeChar_encodeChar : ∀ n, n < 64 → decodeChar (encodeChar n) = some n := by decide

/-- No alphabet character is the padding character. -/
theorem encodeChar_ne_pad : ∀ n, n < 64 → encodeChar n ≠ '=' := by decide

/-- Round trip of the base64 model on byte sequences. -/
theorem base64_roundtrip : ∀ bs : List Nat, (∀ b ∈ bs, b < 256) →
    base64UrlDecode (base64UrlEncode bs) = some bs := by
  intro bs
  induction bs using base64UrlEncode.induct with
  | case1 => intro _; rfl
  | case2 a =>
    intro h
    have ha : a < 256 := h a (by simp)
    have h1 := decodeChar_encodeChar (a / 4) (by omega)
    have h2 := decodeChar_encodeChar (a % 4 * 16) (by omega)
    simp only [base64UrlEncode, base64UrlDecode, h1, h2]
    simp
    omega
  | case3 a b =>
    intro h
    have ha : a < 256 := h a (by simp)
    have hb : b < 256 := h b (by simp)
    have h1 := decodeChar_encodeChar (a / 4) (by omega)
    have h2 := decodeChar_encodeChar (a % 4 * 16 + b / 16) (by omega)
    have h3 := decodeChar_encodeChar (b % 16 * 4) (by omega)
    have hne3 := encodeChar_ne_pad (b % 16 * 4) (by omega)
    simp only [base64UrlEncode, base64UrlDecode, h1, h2, h3, if_neg hne3]
    simp
    omega
  | case4 a b c rest ih =>
    intro h
    have ha : a < 256 := h a (by simp)
    have hb : b < 256 := h b (by simp)
    have hc : c < 256 := h c (by simp)
    have hrest : ∀ x ∈ rest, x < 256 := fun x hx => h x (by simp [hx])
    have hih := ih hrest
    have h1 := decodeChar_encodeChar (a / 4) (by omega)
    have h2 := decodeChar_encodeChar (a % 4 * 16 + b / 16) (by omega)
    have h3 := decodeChar_encodeChar (b % 16 * 4 + c / 64) (by omega)
    have h4 := decodeChar_encodeChar (c % 64) (by omega)
    have hne3 := encodeChar_ne_pad (b % 16 * 4 + c / 64) (by omega)
    have hne4 := encodeChar_ne_pad (c % 64) (by omega)
    simp only [base64UrlEncode, base64UrlDecode, h1, h2, h3, h4, if_neg hne3, if_neg hne4, hih]
    simp
    omega

/-- Every byte produced by `natBytesFuel` is below 256. -/
theorem natBytesFuel_lt (fuel : Nat) : ∀ n b, b ∈ natBytesFuel fuel n → b < 256 := by
  induction fuel with
  | zero => intro n b hb; simp [natBytesFuel] at hb
  | succ fuel ih =>
    intro n b hb
    match n with
    | 0 => simp [natBytesFuel] at hb
    | m + 1 =>
      rw [show natBytesFuel (fuel + 1) (m + 1) =
            natBytesFuel fuel ((m + 1) / 256) ++ [(m + 1) % 256] from rfl] at hb
      rcases List.mem_append.1 hb with h1 | h2
      · exact ih _ _ h1
      · simp at h2
        omega

/-- `bytesToNat` of a snoc. -/
theorem bytesToNat_append (xs : List Nat) (b : Nat) :
    bytesToNat (xs ++ [b]) = bytesToNat xs * 256 + b := by
  simp [bytesToNat, List.foldl_append]

/-- `bytesToNat` inverts `natBytesFuel` when the fuel suffices. -/
theorem bytesToNat_natBytesFuel (fuel : Nat) :
    ∀ n, n ≤ fuel → bytesToNat (natBytesFuel fuel n) = n := by
  induction fuel with
  | zero =>
    intro n h
    have : n = 0 := by omega
    subst this
    rfl
  | succ fuel ih =>
    intro n h
    match n with
    | 0 => rfl
    | m + 1 =>
      rw [show natBytesFuel (fuel + 1) (m + 1) =
            natBytesFuel fuel ((m + 1) / 256) ++ [(m + 1) % 256] from rfl]
      rw [bytesToNat_append, ih ((m + 1) / 256) (by omega)]
      omega

/-- A separator-free byte list splits into a single part. -/
theorem splitOnSep_no_sep : ∀ ys : List Nat, separator ∉ ys → splitOnSep ys = [ys] := by
  intro ys
  induction ys with
  | nil => intro _; rfl
  | cons y rest ih =>
    intro h
    have hy : ¬y = separator := by
      intro he
      exact h (by simp [he])
    have hr : separator ∉ rest := fun hc => h (List.mem_cons_of_mem _ hc)
    simp only [splitOnSep, if_neg hy, ih hr]

/-- Splitting a list whose first separator occurrence is explicit. -/
theorem splitOnSep_append : ∀ xs ys : List Nat, separator ∉ xs →
    splitOnSep (xs ++ separator :: ys) = xs :: splitOnSep ys := by
  intro xs ys
  induction xs with
  | nil =>
    intro _
    simp [splitOnSep]
  | cons x rest ih =>
    intro h
    have hx : ¬x = separator := by
      intro he
      exact h (by simp [he])
    have ih2 := ih (fun hc => h (List.mem_cons_of_mem _ hc))
    simp only [List.cons_append, splitOnSep, if_neg hx, List.append_eq, ih2]

/-- `int64OfNat` is the identity below `2^63`. -/
theorem int64OfNat_small (n : Nat) (h : n < 9223372036854775808) :
    int64OfNat n = (n : Int) := by
  unfold int64OfNat
  dsimp only
  rw [Nat.mod_eq_of_lt (by omega), if_pos h]

/-- Decoding an encoded cursor whose fid bytes and checksum are free of the
separator byte: the checksum comparison decides between a reset and the
embedded fid. -/
theorem decode_encodeCursor (fid : Int) (cs1 cs2 : List Nat)
    (hsep : separator ∉ natBytes fid.natAbs) (hcs : separator ∉ cs1)
    (hlt : ∀ b ∈ cs1, b < 256) :
    EncodedCursor.Decode (encodeCursor fid cs1) cs2 =
      if cs1 ≠ cs2 then ⟨0, cs2⟩
      else ⟨if int64OfNat fid.natAbs < 0 then 0 else int64OfNat fid.natAbs, cs2⟩ := by
  have hbytes : ∀ b ∈ natBytes fid.natAbs ++ separator :: cs1, b < 256 := by
    intro b hb
    rcases List.mem_append.1 hb with h1 | h2
    · exact natBytesFuel_lt _ _ _ h1
    · rcases List.mem_cons.1 h2 with h3 | h4
      · rw [h3]; decide
      · exact hlt b h4
  have hdec := base64_roundtrip (natBytes fid.natAbs ++ separator :: cs1) hbytes
  have hnonnil : encodeCursor fid cs1 ≠ [] := by
    intro he
    rw [show encodeCursor fid cs1 =
          base64UrlEncode (natBytes fid.natAbs ++ separator :: cs1) from rfl] at he
    rw [he] at hdec
    simp [base64UrlDecode] at hdec
  unfold EncodedCursor.Decode
  rw [if_neg hnonnil]
  rw [show encodeCursor fid cs1 =
        base64UrlEncode (natBytes fid.natAbs ++ separator :: cs1) from rfl, hdec]
  dsimp only
  have hlen : (natBytes fid.natAbs ++ separator :: cs1).length ≠ 0 := by simp
  rw [if_neg hlen]
  rw [if_neg (by simp : ¬(natBytes fid.natAbs ++ separator :: cs1).length < 1)]
  rw [splitOnSep_append _ _ hsep, splitOnSep_no_sep _ hcs]
  simp only [List.headD_cons, List.getD_cons_succ, List.getD_cons_zero,
    List.length_cons, List.length_nil, List.length_singleton]
  rw [show bytesToNat (natBytes fid.natAbs) = fid.natAbs from
        bytesToNat_natBytesFuel _ _ (le_refl _)]
  by_cases hc : cs1 = cs2
  · subst hc
    rw [if_neg (fun h => h.2 rfl), if_neg (not_not_intro rfl)]
  · rw [if_pos ⟨by omega, hc⟩, if_pos hc]

/-- Claim C1 counterexample: the fid 124 encodes to the separator byte
itself, so decoding against the same checksum does not return the original
pair. -/
theorem cursor_roundtrip_counterexample :
    EncodedCursor.Decode (encodeCursor 124 [1]) [1] ≠ ⟨124, [1]⟩ := by decide

/-- Claim C1 (amended): decoding an encoded cursor against the same
checksum returns the original pair for every int64 fid at least 0 and every
checksum, provided the separator byte occurs neither among the big-endian
bytes of the fid nor in the checksum. -/
theorem cursor_roundtrip (fid : Int) (cs : List Nat)
    (h0 : 0 ≤ fid) (h1 : fid < 9223372036854775808)
    (hsep : separator ∉ natBytes fid.natAbs) (hcs : separator ∉ cs)
    (hlt : ∀ b ∈ cs, b < 256) :
    EncodedCursor.Decode (encodeCursor fid cs) cs = ⟨fid, cs⟩ := by
  rw [decode_encodeCursor fid cs cs hsep hcs hlt]
  rw [if_neg (by simp)]
  have habs : int64OfNat fid.natAbs = fid := by
    rw [int64OfNat_small fid.natAbs (by omega)]
    omega
  rw [habs, if_neg (by omega)]

/-- Witness for claim C1 at fid 3, checksum `[7]`. -/
theorem cursor_roundtrip_witness :
    EncodedCursor.Decode (encodeCursor 3 [7]) [7] = ⟨3, [7]⟩ :=
  cursor_roundtrip 3 [7] (by decide) (by decide) (by decide) (by decide) (by decide)

/-- Claim C2 counterexample: a stored checksum containing the separator
byte defeats the mismatch detection, so decoding against a different
checksum does not reset to the first page. -/
theorem cursor_mismatch_counterexample :
    ([1, 124] : List Nat) ≠ [1] ∧
    EncodedCursor.Decode (encodeCursor 5 [1, 124]) [1] ≠ ⟨0, [1]⟩ := by decide

/-- Claim C2 (amended): decoding a cursor encoded with one checksum against
a different expected checksum resets to the first page bound to the
expected checksum, provided the separator byte occurs neither among the
big-endian bytes of the fid nor in the stored checksum. -/
theorem cursor_mismatch_resets (fid : Int) (cs1 cs2 : List Nat)
    (_h0 : 0 ≤ fid)
    (hsep : separator ∉ natBytes fid.natAbs) (hcs : separator ∉ cs1)
    (hlt : ∀ b ∈ cs1, b < 256) (hne : cs1 ≠ cs2) :
    EncodedCursor.Decode (encodeCursor fid cs1) cs2 = ⟨0, cs2⟩ := by
  rw [decode_encodeCursor fid cs1 cs2 hsep hcs hlt, if_pos hne]

/-- Witness for claim C2 at fid 3 and distinct checksums `[7]`, `[8]`. -/
theorem cursor_mismatch_resets_witness :
    EncodedCursor.Decode (encodeCursor 3 [7]) [8] = ⟨0, [8]⟩ :=
  cursor_mismatch_resets 3 [7] [8] (by decide) (by decide) (by decide) (by decide) (by decide)

end GoKoala
